import Mathlib

/-!
# analytics_backend: the query service of `server/server.go`

A shallow embedding of the three store accessors (`GetApplicationByAppKey`,
`GetApplications`, `GetEventsForApplication`) and of the three HTTP handlers
built on them, together with the properties of the specification that concern
them.

Conventions of the embedding.

* Go's `(value, error)` results are pairs whose second component is an
  `Option GoError`; `none` is the `nil` error.
* A Go slice is an `Option (List α)`; `none` is the `nil` slice, `some []` the
  empty non-nil slice.  A pointer that may be `nil` is an `Option`.
* Go's `int` and `int64` are `Int` with wrap-around made explicit by
  `wrapInt64`.
* The database is an explicit state: two tables, the faults the driver may
  raise, and the log of the queries it has executed.  Every function that
  touches the database returns the new state.
* The clock is the value `now` returned by `time.Now().Unix()`, read inside
  `GetEventsForApplication`; it is not part of a request.
-/

namespace Server

/-! ## Data model (`server.go`, lines 23-40) -/

/-- A Go `error` value, represented by its message. -/
abbrev GoError := String

/-- The record `type Application struct`. -/
structure Application where
  AppKey : String
  Name : String
  CreationTime : Int
deriving DecidableEq, Repr

/-- The record `type Event struct`. -/
structure Event where
  ID : Int
  ClientKey : String
  AppKey : String
  Time : Int
  Platform : String
  IP : String
  Country : String
  Version : String
  Name : String
  Data : String
deriving DecidableEq, Repr

/-! ## The database collaborator (`database/sql`) -/

/-- A stored row: its column values, and the error `rows.Scan` raises on it
(`none` when the row maps onto the destination variables). -/
structure Row (α : Type) where
  cols : α
  scanErr : Option GoError
deriving DecidableEq, Repr

/-- The three statements the service sends, with their bound parameters. -/
inductive SqlQuery where
  /-- Statement `SELECT app_key, name, creation_time FROM application WHERE app_key = $1`. -/
  | applicationByKey (appKey : String)
  /-- Statement `SELECT app_key, name, creation_time FROM application`. -/
  | allApplications
  /-- Statement `SELECT * FROM event WHERE app_key = $1 AND time >= $2 ORDER BY time DESC`. -/
  | eventsSince (appKey : String) (cutoffTime : Int)
deriving DecidableEq, Repr

/-- The database handle `s.db`. -/
structure DB where
  /-- table `application`, in the order the engine reads it -/
  application : List (Row Application)
  /-- table `event`, in the order the engine reads it -/
  event : List (Row Event)
  /-- the error `db.Query` returns, when query execution fails -/
  queryErr : Option GoError
  /-- when row iteration breaks: the number of rows `rows.Next` hands out
  before it returns false, and the error `rows.Err` then reports -/
  iterErr : Option (Nat × GoError)
  /-- the queries executed so far, oldest first -/
  log : List SqlQuery
deriving DecidableEq, Repr

/-- The cursor `*sql.Rows`: the rows `rows.Next` still hands out, and the value
of `rows.Err()` once `rows.Next` has returned false. -/
structure Rows (α : Type) where
  pending : List (Row α)
  err : Option GoError

/-- The call `rows.Scan(...)` on the current row. -/
def Scan {α : Type} (r : Row α) : Option GoError × α :=
  (r.scanErr, r.cols)

/-- One insertion step of `ORDER BY time DESC`: the row goes in front of the
first row that is not newer than it. -/
def insertByTimeDesc (r : Row Event) : List (Row Event) → List (Row Event)
  | [] => [r]
  | x :: xs =>
    if x.cols.Time ≤ r.cols.Time then r :: x :: xs
    else x :: insertByTimeDesc r xs

/-- The clause `ORDER BY time DESC`, as a stable insertion sort. -/
def orderByTimeDesc : List (Row Event) → List (Row Event)
  | [] => []
  | r :: rs => insertByTimeDesc r (orderByTimeDesc rs)

/-- Result set of
`SELECT app_key, name, creation_time FROM application WHERE app_key = $1`. -/
def selectApplicationByKey (db : DB) (appKey : String) : List (Row Application) :=
  db.application.filter (fun r => r.cols.AppKey == appKey)

/-- Result set of `SELECT app_key, name, creation_time FROM application`. -/
def selectApplications (db : DB) : List (Row Application) :=
  db.application

/-- Result set of
`SELECT * FROM event WHERE app_key = $1 AND time >= $2 ORDER BY time DESC`. -/
def selectEvents (db : DB) (appKey : String) (cutoffTime : Int) : List (Row Event) :=
  orderByTimeDesc
    (db.event.filter (fun r => r.cols.AppKey == appKey && decide (cutoffTime ≤ r.cols.Time)))

/-- The cursor over a result set, cut short when row iteration breaks. -/
def DB.cursor {α : Type} (db : DB) (result : List (Row α)) : Rows α :=
  match db.iterErr with
  | none => { pending := result, err := none }
  | some (n, e) => { pending := result.take n, err := some e }

/-- The call `s.db.Query(stmt, args...)` for a statement whose result set is `result`:
the query is logged; on failure the error is returned with an empty cursor. -/
def DB.Query {α : Type} (db : DB) (q : SqlQuery) (result : List (Row α)) :
    (Rows α × Option GoError) × DB :=
  let db1 := { db with log := db.log ++ [q] }
  match db.queryErr with
  | some e => (({ pending := [], err := none }, some e), db1)
  | none => ((db.cursor result, none), db1)

/-! ## Machine integers -/

/-- Two's-complement wrap-around of a 64-bit signed integer. -/
def wrapInt64 (x : Int) : Int :=
  (x + 2 ^ 63) % 2 ^ 64 - 2 ^ 63

/-- The largest value of Go's `int` and `int64`. -/
def maxInt : Int := 2 ^ 63 - 1

/-- The smallest value of Go's `int` and `int64`. -/
def minInt : Int := -(2 ^ 63)

/-! ## Store accessors -/

/-- Accessor `GetApplicationByAppKey` (`server.go`, lines 91-109). -/
def GetApplicationByAppKey (db : DB) (apiKey : String) :
    (Option Application × Option GoError) × DB :=
  match db.Query (.applicationByKey apiKey) (selectApplicationByKey db apiKey) with
  | ((rows, err), db1) =>
    if err.isSome then ((none, err), db1)
    else
      match rows.pending with
      | r :: _ =>
        match Scan r with
        | (some e, _) => ((none, some e), db1)
        | (none, a) =>
          ((some { AppKey := a.AppKey, Name := a.Name, CreationTime := a.CreationTime }, none), db1)
      | [] => ((none, err), db1)

/-- The loop `for rows.Next() { ...Scan...; apps = append(apps, ...) }` of
`GetApplications`: the first failing `Scan` aborts it. -/
def scanApplications : List (Row Application) → List Application →
    Option (List Application) × Option GoError
  | [], apps => (some apps, none)
  | r :: rest, apps =>
    match Scan r with
    | (some e, _) => (none, some e)
    | (none, a) =>
      scanApplications rest
        (apps ++ [{ AppKey := a.AppKey, Name := a.Name, CreationTime := a.CreationTime }])

/-- Accessor `GetApplications` (`server.go`, lines 128-150). -/
def GetApplications (db : DB) : (Option (List Application) × Option GoError) × DB :=
  match db.Query .allApplications (selectApplications db) with
  | ((rows, err), db1) =>
    if err.isSome then ((none, err), db1)
    else
      match scanApplications rows.pending [] with
      | (_, some e) => ((none, some e), db1)
      | (apps, none) =>
        match rows.err with
        | some e => ((none, some e), db1)
        | none => ((apps, none), db1)

/-- The loop `for rows.Next() { ...Scan...; events = append(events, &e) }` of
`GetEventsForApplication`. -/
def scanEvents : List (Row Event) → List Event → Option (List Event) × Option GoError
  | [], events => (some events, none)
  | r :: rest, events =>
    match Scan r with
    | (some e, _) => (none, some e)
    | (none, ev) => scanEvents rest (events ++ [ev])

/-- The assignment `cutoffTime := time.Now().Unix() - int64(minutesAgo*60)`; the product is
computed in `int`, the difference in `int64`. -/
def cutoffTime (now : Int) (minutesAgo : Int) : Int :=
  wrapInt64 (now - wrapInt64 (minutesAgo * 60))

/-- Accessor `GetEventsForApplication` (`server.go`, lines 202-231); `now` is the value
of `time.Now().Unix()`. -/
def GetEventsForApplication (db : DB) (now : Int) (apiKey : String) (minutesAgo : Int) :
    (Option (List Event) × Option GoError) × DB :=
  let cutoff := cutoffTime now minutesAgo
  match db.Query (.eventsSince apiKey cutoff) (selectEvents db apiKey cutoff) with
  | ((rows, err), db1) =>
    if err.isSome then ((none, err), db1)
    else
      match scanEvents rows.pending [] with
      | (_, some e) => ((none, some e), db1)
      | (events, none) =>
        match rows.err with
        | some e => ((none, some e), db1)
        | none => ((events, none), db1)

/-! ## HTTP layer -/

/-- An inbound request, reduced to the decoded pairs of its query string, in
the order they appear in the URL. -/
structure Request where
  query : List (String × String)
deriving DecidableEq, Repr

/-- The call `r.URL.Query().Get(key)`: the first value bound to `key`, or the
empty string when the key is absent. -/
def Request.Get (r : Request) (key : String) : String :=
  match r.query.find? (fun p => p.1 == key) with
  | some p => p.2
  | none => ""

/-- What the handler has written to the `http.ResponseWriter`. -/
structure Response where
  status : Nat
  header : List (String × String)
  body : String
deriving DecidableEq, Repr

/-- Constant `http.StatusOK`. -/
def StatusOK : Nat := 200

/-- Constant `http.StatusBadRequest`. -/
def StatusBadRequest : Nat := 400

/-- Constant `http.StatusNotFound`. -/
def StatusNotFound : Nat := 404

/-- Constant `http.StatusInternalServerError`. -/
def StatusInternalServerError : Nat := 500

/-- The call `http.Error(w, msg, code)`. -/
def httpError (msg : String) (code : Nat) : Response :=
  { status := code
    header := [("Content-Type", "text/plain; charset=utf-8"),
               ("X-Content-Type-Options", "nosniff")]
    body := msg ++ "\n" }

/-- A first `w.Write(body)` after `w.Header().Set("Content-Type",
"application/json")`: the status defaults to 200. -/
def writeJSON (body : String) : Response :=
  { status := StatusOK
    header := [("Content-Type", "application/json")]
    body := body }

/-! ### `strconv.Atoi` -/

/-- Value of a string of decimal digits. -/
def digitsValue (ds : List Char) : Nat :=
  ds.foldl (fun acc c => acc * 10 + (c.toNat - 48)) 0

/-- Go's `strconv.Atoi` on a 64-bit platform: an optional sign followed by
one or more decimal digits, the value within the range of `int`.  On a range
error Go returns the nearest bound together with the error. -/
def Atoi (s : String) : Int × Option GoError :=
  let body : Bool × List Char :=
    match s.toList with
    | '-' :: rest => (true, rest)
    | '+' :: rest => (false, rest)
    | cs => (false, cs)
  if body.2.isEmpty || !body.2.all Char.isDigit then
    (0, some "invalid syntax")
  else
    let v : Int := if body.1 then -(digitsValue body.2 : Int) else (digitsValue body.2 : Int)
    if v < minInt then (minInt, some "value out of range")
    else if maxInt < v then (maxInt, some "value out of range")
    else (v, none)

/-! ### `encoding/json` -/

/-- Lower-case hexadecimal digit. -/
def hexDigit (n : Nat) : Char :=
  "0123456789abcdef".toList.getD n '0'

/-- The escape `\u00XX` of a character below 256. -/
def jsonUnicodeEscape (c : Char) : List Char :=
  ['\\', 'u', '0', '0', hexDigit (c.toNat / 16), hexDigit (c.toNat % 16)]

/-- How `encoding/json` writes one character of a string, HTML escaping on
(short escapes for backspace and form feed as in Go 1.22 and later). -/
def jsonEscapeChar (c : Char) : List Char :=
  if c = '"' then ['\\', '"']
  else if c = '\\' then ['\\', '\\']
  else if c.toNat = 8 then ['\\', 'b']
  else if c.toNat = 12 then ['\\', 'f']
  else if c = '\n' then ['\\', 'n']
  else if c = '\r' then ['\\', 'r']
  else if c = '\t' then ['\\', 't']
  else if c.toNat < 32 ∨ c = '<' ∨ c = '>' ∨ c = '&' then jsonUnicodeEscape c
  else if c.toNat = 0x2028 then ['\\', 'u', '2', '0', '2', '8']
  else if c.toNat = 0x2029 then ['\\', 'u', '2', '0', '2', '9']
  else [c]

/-- A Go string as a JSON string. -/
def jsonString (s : String) : String :=
  String.mk (['"'] ++ (s.toList.map jsonEscapeChar).flatten ++ ['"'])

/-- A Go integer as a JSON number. -/
def jsonInt (n : Int) : String :=
  toString n

/-- An `Application` as a JSON object, fields in declaration order under their
`json` tags. -/
def Application.toJSON (a : Application) : String :=
  "\x7b\"app_key\":" ++ jsonString a.AppKey ++
  ",\"name\":" ++ jsonString a.Name ++
  ",\"creation_time\":" ++ jsonInt a.CreationTime ++ "\x7d"

/-- An `Event` as a JSON object, fields in declaration order under their
`json` tags. -/
def Event.toJSON (e : Event) : String :=
  "\x7b\"id\":" ++ jsonInt e.ID ++
  ",\"client_key\":" ++ jsonString e.ClientKey ++
  ",\"app_key\":" ++ jsonString e.AppKey ++
  ",\"time\":" ++ jsonInt e.Time ++
  ",\"platform\":" ++ jsonString e.Platform ++
  ",\"ip\":" ++ jsonString e.IP ++
  ",\"country\":" ++ jsonString e.Country ++
  ",\"version\":" ++ jsonString e.Version ++
  ",\"name\":" ++ jsonString e.Name ++
  ",\"data\":" ++ jsonString e.Data ++ "\x7d"

/-- A Go slice as JSON: `null` for the nil slice, an array otherwise. -/
def jsonSlice {α : Type} (elem : α → String) : Option (List α) → String
  | none => "null"
  | some xs => "[" ++ ",".intercalate (xs.map elem) ++ "]"

/-- The call `json.Marshal(applications)` on a `[]Application`; it has no
failing case for this type. -/
def MarshalApplications (apps : Option (List Application)) : String × Option GoError :=
  (jsonSlice Application.toJSON apps, none)

/-- The call `json.Marshal(events)` on a `[]*Event`; it has no failing case
for this type. -/
def MarshalEvents (events : Option (List Event)) : String × Option GoError :=
  (jsonSlice Event.toJSON events, none)

/-- The call `json.NewEncoder(w).Encode(application)` on a `*Application`: the
JSON value (`null` for the nil pointer) followed by a newline. -/
def EncodeApplication : Option Application → String
  | none => "null\n"
  | some a => a.toJSON ++ "\n"

/-! ### Handlers -/

/-- Handler `GetApplicationByAppKeyHandler` (`server.go`, lines 111-126). -/
def GetApplicationByAppKeyHandler (db : DB) (r : Request) : Response × DB :=
  let appKey := r.Get "app_key"
  if appKey = "" then
    (httpError "app_key parameter is required" StatusBadRequest, db)
  else
    match GetApplicationByAppKey db appKey with
    | ((application, err), db1) =>
      match err with
      | some e => (httpError e StatusNotFound, db1)
      | none => (writeJSON (EncodeApplication application), db1)

/-- Handler `GetApplicationsHandler` (`server.go`, lines 152-167). -/
def GetApplicationsHandler (db : DB) (_r : Request) : Response × DB :=
  match GetApplications db with
  | ((applications, err), db1) =>
    match err with
    | some e => (httpError e StatusInternalServerError, db1)
    | none =>
      match MarshalApplications applications with
      | (_, some e) => (httpError e StatusInternalServerError, db1)
      | (jsonBytes, none) => (writeJSON jsonBytes, db1)

/-- Handler `GetEventsHandler` (`server.go`, lines 169-200); `now` is the
clock value the accessor reads. -/
def GetEventsHandler (db : DB) (now : Int) (r : Request) : Response × DB :=
  let appKey := r.Get "app_key"
  let timeStr := r.Get "time"
  match Atoi timeStr with
  | (_, some _) => (httpError "Invalid time duration" StatusBadRequest, db)
  | (timeInt, none) =>
    let timeDuration := timeInt
    match GetEventsForApplication db now appKey timeDuration with
    | ((events, err), db1) =>
      match err with
      | some _ => (httpError "Error retrieving events" StatusInternalServerError, db1)
      | none =>
        match MarshalEvents events with
        | (_, some _) =>
          (httpError "Error converting events to JSON" StatusInternalServerError, db1)
        | (jsonResponse, none) => (writeJSON jsonResponse, db1)

/-! ## Example stores and requests -/

/-- The event with the given id, key and time, the free-form fields empty. -/
def mkEvent (id : Int) (appKey : String) (time : Int) : Event :=
  { ID := id, ClientKey := "c", AppKey := appKey, Time := time, Platform := "", IP := "",
    Country := "", Version := "", Name := "", Data := "" }

/-- The clock value used in the examples. -/
def demoNow : Int := 1700000000

/-- The scenario of the specification: application `k1` with one event at the
current time and one an hour old; a second application with one event. -/
def demoDB : DB :=
  { application :=
      [{ cols := { AppKey := "k1", Name := "Demo", CreationTime := 1000 }, scanErr := none },
       { cols := { AppKey := "k2", Name := "Other", CreationTime := 2000 }, scanErr := none }]
    event :=
      [{ cols := mkEvent 2 "k1" (demoNow - 3600), scanErr := none },
       { cols := mkEvent 3 "k2" demoNow, scanErr := none },
       { cols := mkEvent 1 "k1" demoNow, scanErr := none }]
    queryErr := none
    iterErr := none
    log := [] }

/-- A store holding nothing. -/
def emptyDB : DB :=
  { application := [], event := [], queryErr := none, iterErr := none, log := [] }

/-- The demo store behind a connection on which query execution fails. -/
def downDB : DB :=
  { demoDB with queryErr := some "pq: connection refused" }

/-- The demo store with one more row in each table on which `Scan` fails. -/
def badRowDB : DB :=
  { demoDB with
    application := demoDB.application ++
      [{ cols := { AppKey := "k3", Name := "", CreationTime := 0 },
         scanErr := some "sql: Scan error on column index 1" }]
    event := demoDB.event ++
      [{ cols := mkEvent 4 "k3" demoNow,
         scanErr := some "sql: Scan error on column index 4" }] }

/-- A store in which an application is registered under the empty key. -/
def emptyKeyDB : DB :=
  { emptyDB with
    application :=
      [{ cols := { AppKey := "", Name := "Anonymous", CreationTime := 1000 }, scanErr := none }] }

/-- A store with one event of key `k`, ten seconds old at clock value 1000. -/
def recentDB : DB :=
  { emptyDB with event := [{ cols := mkEvent 1 "k" 990, scanErr := none }] }

/-! ## Lemmas on the database model -/

theorem mem_insertByTimeDesc (x r : Row Event) (l : List (Row Event)) :
    x ∈ insertByTimeDesc r l ↔ x = r ∨ x ∈ l := by
  induction l with
  | nil => simp [insertByTimeDesc]
  | cons y ys ih =>
    unfold insertByTimeDesc
    split
    · simp
    · simp only [List.mem_cons, ih]
      tauto

theorem mem_orderByTimeDesc (x : Row Event) (l : List (Row Event)) :
    x ∈ orderByTimeDesc l ↔ x ∈ l := by
  induction l with
  | nil => simp [orderByTimeDesc]
  | cons y ys ih => simp [orderByTimeDesc, mem_insertByTimeDesc, ih]

theorem pairwise_insertByTimeDesc (r : Row Event) (l : List (Row Event))
    (h : l.Pairwise (fun a b => b.cols.Time ≤ a.cols.Time)) :
    (insertByTimeDesc r l).Pairwise (fun a b => b.cols.Time ≤ a.cols.Time) := by
  induction l with
  | nil => simp [insertByTimeDesc]
  | cons y ys ih =>
    have hy : ∀ b ∈ ys, b.cols.Time ≤ y.cols.Time := (List.pairwise_cons.mp h).1
    have hys := List.Pairwise.of_cons h
    unfold insertByTimeDesc
    split
    · rename_i hle
      refine List.Pairwise.cons ?_ h
      intro b hb
      rcases List.mem_cons.mp hb with rfl | hb
      · exact hle
      · exact le_trans (hy b hb) hle
    · rename_i hlt
      refine List.Pairwise.cons ?_ (ih hys)
      intro b hb
      rcases (mem_insertByTimeDesc b r ys).mp hb with rfl | hb
      · exact le_of_lt (not_le.mp hlt)
      · exact hy b hb

theorem pairwise_orderByTimeDesc (l : List (Row Event)) :
    (orderByTimeDesc l).Pairwise (fun a b => b.cols.Time ≤ a.cols.Time) := by
  induction l with
  | nil => simp [orderByTimeDesc]
  | cons y ys ih => exact pairwise_insertByTimeDesc y _ ih

theorem mem_selectEvents (db : DB) (k : String) (c : Int) (x : Row Event) :
    x ∈ selectEvents db k c ↔ x ∈ db.event ∧ x.cols.AppKey = k ∧ c ≤ x.cols.Time := by
  simp [selectEvents, mem_orderByTimeDesc, List.mem_filter]

/-- What a run of the event loop that ends without an error has done. -/
theorem scanEvents_of_ok (rows : List (Row Event)) (acc : List Event)
    (evs : Option (List Event)) (h : scanEvents rows acc = (evs, none)) :
    evs = some (acc ++ rows.map (fun r => r.cols)) ∧ ∀ r ∈ rows, r.scanErr = none := by
  induction rows generalizing acc with
  | nil =>
    simp only [scanEvents, Prod.mk.injEq, and_true] at h
    simp [← h]
  | cons r rest ih =>
    unfold scanEvents Scan at h
    cases hr : r.scanErr with
    | some e => simp [hr] at h
    | none =>
      simp only [hr] at h
      obtain ⟨h1, h2⟩ := ih _ h
      refine ⟨by simp [h1], ?_⟩
      intro x hx
      rcases List.mem_cons.mp hx with rfl | hx
      · exact hr
      · exact h2 x hx

/-- The event loop succeeds on rows that all scan. -/
theorem scanEvents_ok (rows : List (Row Event)) (acc : List Event)
    (h : ∀ r ∈ rows, r.scanErr = none) :
    scanEvents rows acc = (some (acc ++ rows.map (fun r => r.cols)), none) := by
  induction rows generalizing acc with
  | nil => simp [scanEvents]
  | cons r rest ih =>
    have hr : r.scanErr = none := h r (List.mem_cons_self _ _)
    unfold scanEvents Scan
    simp only [hr]
    rw [ih _ (fun x hx => h x (List.mem_cons_of_mem _ hx))]
    simp

/-- The event loop never returns a slice together with an error. -/
theorem scanEvents_shape (rows : List (Row Event)) (acc : List Event) :
    (∃ evs, scanEvents rows acc = (some evs, none)) ∨
      (∃ e, scanEvents rows acc = (none, some e)) := by
  induction rows generalizing acc with
  | nil => exact Or.inl ⟨acc, rfl⟩
  | cons r rest ih =>
    unfold scanEvents Scan
    cases hr : r.scanErr with
    | some e => exact Or.inr ⟨e, rfl⟩
    | none => exact ih _

theorem wrapInt64_of_inRange (x : Int) (h0 : minInt ≤ x) (h1 : x ≤ maxInt) :
    wrapInt64 x = x := by
  unfold minInt at h0
  unfold maxInt at h1
  unfold wrapInt64
  norm_num at h0 h1 ⊢
  omega

/-- When neither the product nor the difference overflows, the cutoff is the
mathematical `now - minutesAgo * 60`. -/
theorem cutoffTime_of_inRange (now w : Int) (hn1 : now ≤ maxInt)
    (hw0 : 0 ≤ w) (hw1 : w * 60 ≤ maxInt) (hsub : minInt ≤ now - w * 60) :
    cutoffTime now w = now - w * 60 := by
  unfold cutoffTime
  have hm : minInt ≤ 0 := by decide
  rw [wrapInt64_of_inRange (w * 60) (by omega) hw1]
  exact wrapInt64_of_inRange _ hsub (by omega)

/-- Every call of the accessor executes exactly one query. -/
theorem GetEventsForApplication_db (db : DB) (now : Int) (k : String) (w : Int) :
    (GetEventsForApplication db now k w).2 =
      { db with log := db.log ++ [.eventsSince k (cutoffTime now w)] } := by
  unfold GetEventsForApplication DB.Query
  cases db.queryErr <;> simp only [Option.isSome] <;> (try rfl)
  simp only [Bool.false_eq_true, if_false]
  split
  · rfl
  · split <;> rfl

/-- On a store without faults the accessor returns the scanned result set. -/
theorem GetEventsForApplication_healthy (db : DB) (now : Int) (k : String) (w : Int)
    (hq : db.queryErr = none) (hi : db.iterErr = none)
    (hs : ∀ r ∈ db.event, r.scanErr = none) :
    (GetEventsForApplication db now k w).1 =
      (some ((selectEvents db k (cutoffTime now w)).map (fun r => r.cols)), none) := by
  have hall : ∀ r ∈ selectEvents db k (cutoffTime now w), r.scanErr = none :=
    fun r hr => hs r ((mem_selectEvents db k _ r).mp hr).1
  unfold GetEventsForApplication DB.Query DB.cursor
  simp only [hq, hi, Option.isSome, Bool.false_eq_true, if_false]
  rw [scanEvents_ok _ [] hall]
  simp

/-- A call that returns the nil error returns the scanned result set: the
query ran, every row was handed out and every row scanned. -/
theorem GetEventsForApplication_of_ok (db : DB) (now : Int) (k : String) (w : Int)
    (h : (GetEventsForApplication db now k w).1.2 = none) :
    (GetEventsForApplication db now k w).1.1 =
      some ((selectEvents db k (cutoffTime now w)).map (fun r => r.cols)) := by
  unfold GetEventsForApplication DB.Query DB.cursor at h ⊢
  cases hq : db.queryErr with
  | some e => simp [hq] at h
  | none =>
    cases hi : db.iterErr with
    | some ne =>
      simp only [hq, hi, Option.isSome, Bool.false_eq_true, if_false] at h
      rcases scanEvents_shape (List.take ne.1 (selectEvents db k (cutoffTime now w))) []
        with ⟨evs, he⟩ | ⟨e, he⟩
      · rw [he] at h; simp at h
      · rw [he] at h; simp at h
    | none =>
      simp only [hq, hi, Option.isSome, Bool.false_eq_true, if_false] at h ⊢
      rcases scanEvents_shape (selectEvents db k (cutoffTime now w)) []
        with ⟨evs, he⟩ | ⟨e, he⟩
      · have := (scanEvents_of_ok _ _ _ he).1
        rw [he]
        simpa using this
      · rw [he] at h; simp at h

theorem pairwise_adjacent {α : Type} (R : α → α → Prop) (l : List α) (h : l.Pairwise R)
    (i : Nat) (a b : α) (ha : l[i]? = some a) (hb : l[i + 1]? = some b) : R a b := by
  induction l generalizing i with
  | nil => simp at ha
  | cons x xs ih =>
    cases i with
    | zero =>
      simp only [List.getElem?_cons_zero, Option.some.injEq] at ha
      simp only [zero_add, List.getElem?_cons_succ] at hb
      subst ha
      exact (List.pairwise_cons.mp h).1 b (List.mem_iff_getElem?.mpr ⟨0, hb⟩)
    | succ j =>
      simp only [List.getElem?_cons_succ] at ha hb
      exact ih (List.Pairwise.of_cons h) j ha hb

/-! ## Claims on `GetEventsForApplication` -/

/-- C1: on a store that is a plain list of event rows (no driver fault), with
the clock reading `now` a Unix time at or after the epoch, and for every
window `0 ≤ w` whose product `w * 60` does not overflow `int`, the call
succeeds and a stored event of key `k` is in the result exactly when its time
is at least `now - w * 60`; every returned event carries the key `k`. -/
theorem getEventsForApplication_window_iff (db : DB) (now : Int) (k : String) (w : Int)
    (hq : db.queryErr = none) (hi : db.iterErr = none)
    (hs : ∀ r ∈ db.event, r.scanErr = none)
    (hn0 : 0 ≤ now) (hn1 : now ≤ maxInt) (hw0 : 0 ≤ w) (hw1 : w * 60 ≤ maxInt) :
    ∃ events, (GetEventsForApplication db now k w).1 = (some events, none) ∧
      (∀ r ∈ db.event, r.cols.AppKey = k → (r.cols ∈ events ↔ now - w * 60 ≤ r.cols.Time)) ∧
      (∀ ev ∈ events, ev.AppKey = k) := by
  have hsub : minInt ≤ now - w * 60 := by
    unfold minInt
    unfold maxInt at hw1
    omega
  refine ⟨_, GetEventsForApplication_healthy db now k w hq hi hs, ?_, ?_⟩
  · intro r hr hk
    rw [cutoffTime_of_inRange now w hn1 hw0 hw1 hsub]
    constructor
    · intro hmem
      obtain ⟨x, hx, hxe⟩ := List.mem_map.mp hmem
      have := ((mem_selectEvents db k _ x).mp hx).2.2
      rw [← hxe]
      exact this
    · intro hle
      exact List.mem_map.mpr ⟨r, (mem_selectEvents db k _ r).mpr ⟨hr, hk, hle⟩, rfl⟩
  · intro ev hev
    obtain ⟨x, hx, hxe⟩ := List.mem_map.mp hev
    rw [← hxe]
    exact ((mem_selectEvents db k _ x).mp hx).2.1

/-- C1, at the scenario of the specification: a window of 30 minutes on the
demo store returns the event at the current time and not the one an hour
old. -/
theorem getEventsForApplication_window_iff_witness :
    demoDB.queryErr = none ∧ demoDB.iterErr = none ∧
    (∀ r ∈ demoDB.event, r.scanErr = none) ∧
    (0 : Int) ≤ demoNow ∧ demoNow ≤ maxInt ∧ (0 : Int) ≤ 30 ∧ (30 : Int) * 60 ≤ maxInt ∧
    ∃ events, (GetEventsForApplication demoDB demoNow "k1" 30).1 = (some events, none) ∧
      (∀ r ∈ demoDB.event, r.cols.AppKey = "k1" →
        (r.cols ∈ events ↔ demoNow - 30 * 60 ≤ r.cols.Time)) ∧
      (∀ ev ∈ events, ev.AppKey = "k1") :=
  ⟨by decide, by decide, by decide, by decide, by decide, by decide, by decide,
   getEventsForApplication_window_iff demoDB demoNow "k1" 30 (by decide) (by decide)
     (by decide) (by decide) (by decide) (by decide) (by decide)⟩

/-- C7: whenever `GetEventsForApplication` succeeds (nil error), it returns a
slice in which every pair of adjacent events is ordered newest first:
`result[i].Time ≥ result[i+1].Time`. -/
theorem getEventsForApplication_sorted_desc (db : DB) (now : Int) (k : String) (w : Int)
    (h : (GetEventsForApplication db now k w).1.2 = none) :
    ∃ events, (GetEventsForApplication db now k w).1.1 = some events ∧
      ∀ (i : Nat) (a b : Event), events[i]? = some a → events[i + 1]? = some b →
        b.Time ≤ a.Time := by
  refine ⟨_, GetEventsForApplication_of_ok db now k w h, ?_⟩
  intro i a b ha hb
  have hp : ((selectEvents db k (cutoffTime now w)).map (fun r => r.cols)).Pairwise
      (fun a b => b.Time ≤ a.Time) := by
    rw [List.pairwise_map]
    exact pairwise_orderByTimeDesc _
  exact pairwise_adjacent _ _ hp i a b ha hb

/-- C7, at the demo store: the two events of `k1` come back newest first. -/
theorem getEventsForApplication_sorted_desc_witness :
    (GetEventsForApplication demoDB demoNow "k1" 120).1.2 = none ∧
    ∃ events, (GetEventsForApplication demoDB demoNow "k1" 120).1.1 = some events ∧
      ∀ (i : Nat) (a b : Event), events[i]? = some a → events[i + 1]? = some b →
        b.Time ≤ a.Time :=
  ⟨by decide, getEventsForApplication_sorted_desc demoDB demoNow "k1" 120 (by decide)⟩

/-- C8, counterexample: at clock value 1000 the ten-second-old event of key `k`
is returned for the window `1` and not for the window `maxInt`, whose product
with 60 wraps around to `-60` and puts the cutoff at `1060`. -/
theorem getEventsForApplication_not_monotone :
    (0 : Int) ≤ 1 ∧ (1 : Int) ≤ maxInt ∧ maxInt ≤ maxInt ∧
    (GetEventsForApplication recentDB 1000 "k" 1).1 = (some [mkEvent 1 "k" 990], none) ∧
    cutoffTime 1000 maxInt = 1060 ∧
    (GetEventsForApplication recentDB 1000 "k" maxInt).1 = (some [], none) := by
  decide

/-- C8, amended: on a store without faults, for a clock value in the range of
`int64` and windows `0 ≤ w1 ≤ w2` such that the cutoff of `w2` is computed
without overflow (neither `w2 * 60` nor `now - w2 * 60` overflows), both calls
succeed and every event returned for `w1` is returned for `w2`; and when
`now - w2 * 60` is at or below the time of every stored event of key `k`, the
result for `w2` holds every stored event of that key. -/
theorem getEventsForApplication_monotone_in_range (db : DB) (now : Int) (k : String)
    (w1 w2 : Int) (hq : db.queryErr = none) (hi : db.iterErr = none)
    (hs : ∀ r ∈ db.event, r.scanErr = none)
    (hn1 : now ≤ maxInt)
    (h0 : 0 ≤ w1) (h12 : w1 ≤ w2) (h2 : w2 * 60 ≤ maxInt)
    (hsub : minInt ≤ now - w2 * 60) :
    ∃ ev1 ev2, (GetEventsForApplication db now k w1).1 = (some ev1, none) ∧
      (GetEventsForApplication db now k w2).1 = (some ev2, none) ∧
      (∀ e ∈ ev1, e ∈ ev2) ∧
      ((∀ r ∈ db.event, r.cols.AppKey = k → now - w2 * 60 ≤ r.cols.Time) →
        ∀ r ∈ db.event, r.cols.AppKey = k → r.cols ∈ ev2) := by
  have h1 : w1 * 60 ≤ maxInt := by omega
  have hsub1 : minInt ≤ now - w1 * 60 := by omega
  refine ⟨_, _, GetEventsForApplication_healthy db now k w1 hq hi hs,
    GetEventsForApplication_healthy db now k w2 hq hi hs, ?_, ?_⟩
  · intro e he
    rw [cutoffTime_of_inRange now w1 hn1 h0 h1 hsub1] at he
    rw [cutoffTime_of_inRange now w2 hn1 (le_trans h0 h12) h2 hsub]
    obtain ⟨x, hx, hxe⟩ := List.mem_map.mp he
    obtain ⟨hx1, hx2, hx3⟩ := (mem_selectEvents db k _ x).mp hx
    exact List.mem_map.mpr ⟨x, (mem_selectEvents db k _ x).mpr ⟨hx1, hx2, by omega⟩, hxe⟩
  · intro hall r hr hk
    rw [cutoffTime_of_inRange now w2 hn1 (le_trans h0 h12) h2 hsub]
    exact List.mem_map.mpr ⟨r, (mem_selectEvents db k _ r).mpr ⟨hr, hk, hall r hr hk⟩, rfl⟩

/-- C8 amended, at the demo store: windows of 30 and 120 minutes; the second
reaches behind the oldest event of `k1` and returns both. -/
theorem getEventsForApplication_monotone_in_range_witness :
    demoDB.queryErr = none ∧ demoDB.iterErr = none ∧
    (∀ r ∈ demoDB.event, r.scanErr = none) ∧
    demoNow ≤ maxInt ∧
    (0 : Int) ≤ 30 ∧ (30 : Int) ≤ 120 ∧ (120 : Int) * 60 ≤ maxInt ∧
    minInt ≤ demoNow - 120 * 60 ∧
    ∃ ev1 ev2, (GetEventsForApplication demoDB demoNow "k1" 30).1 = (some ev1, none) ∧
      (GetEventsForApplication demoDB demoNow "k1" 120).1 = (some ev2, none) ∧
      (∀ e ∈ ev1, e ∈ ev2) ∧
      ((∀ r ∈ demoDB.event, r.cols.AppKey = "k1" → demoNow - 120 * 60 ≤ r.cols.Time) →
        ∀ r ∈ demoDB.event, r.cols.AppKey = "k1" → r.cols ∈ ev2) :=
  ⟨by decide, by decide, by decide, by decide, by decide, by decide, by decide, by decide,
   getEventsForApplication_monotone_in_range demoDB demoNow "k1" 30 120 (by decide)
     (by decide) (by decide) (by decide) (by decide) (by decide) (by decide) (by decide)⟩

/-! ## Claims on `GetEventsHandler` -/

theorem Request.Get_of_missing (r : Request) (key : String)
    (h : ∀ v, (key, v) ∉ r.query) : r.Get key = "" := by
  unfold Request.Get
  have : r.query.find? (fun p => p.1 == key) = none := by
    rw [List.find?_eq_none]
    intro p hp hpk
    have hk : p.1 = key := by simpa using hpk
    exact h p.2 (by rw [← hk]; exact hp)
  rw [this]

theorem Atoi_empty : Atoi "" = (0, some "invalid syntax") := by decide

/-- The handler result once `time` has parsed: the accessor is called with the
parsed value and its outcome decides between 200 and 500. -/
theorem GetEventsHandler_of_parsed (db : DB) (now : Int) (r : Request) (n : Int)
    (hp : Atoi (r.Get "time") = (n, none)) :
    (GetEventsHandler db now r).2 = (GetEventsForApplication db now (r.Get "app_key") n).2 ∧
    ((GetEventsForApplication db now (r.Get "app_key") n).1.2 = none →
      (GetEventsHandler db now r).1 =
        writeJSON (jsonSlice Event.toJSON
          (GetEventsForApplication db now (r.Get "app_key") n).1.1)) ∧
    ((GetEventsForApplication db now (r.Get "app_key") n).1.2 ≠ none →
      (GetEventsHandler db now r).1 =
        httpError "Error retrieving events" StatusInternalServerError) := by
  unfold GetEventsHandler
  simp only [hp]
  rcases hg : GetEventsForApplication db now (r.Get "app_key") n with ⟨⟨events, err⟩, db1⟩
  cases err with
  | some e => simp
  | none => simp [MarshalEvents]

/-- C10, counterexample: `GET /events?app_key=k1&time=-5` on the demo store is
answered with 200 and `[]`, after the store has been queried with a cutoff 300
seconds in the future. -/
theorem getEventsHandler_accepts_negative_window :
    Atoi "-5" = (-5, none) ∧
    (GetEventsHandler demoDB demoNow ⟨[("app_key", "k1"), ("time", "-5")]⟩).1 =
      writeJSON "[]" ∧
    (GetEventsHandler demoDB demoNow ⟨[("app_key", "k1"), ("time", "-5")]⟩).1.status = 200 ∧
    (GetEventsHandler demoDB demoNow ⟨[("app_key", "k1"), ("time", "-5")]⟩).2.log =
      [.eventsSince "k1" (demoNow + 300)] := by
  decide

/-- C10, amended: the handler does not check the sign of the window.  When
`time` parses to a negative integer `n`, the handler calls
`GetEventsForApplication` with `minutesAgo = n` (one query with the cutoff
`cutoffTime now n` is executed), answers 200 when that call succeeds and 500
when it fails, and never answers 400. -/
theorem getEventsHandler_negative_window (db : DB) (now : Int) (r : Request) (n : Int)
    (hp : Atoi (r.Get "time") = (n, none)) (hneg : n < 0) :
    (GetEventsHandler db now r).2 = (GetEventsForApplication db now (r.Get "app_key") n).2 ∧
    (GetEventsHandler db now r).2.log =
      db.log ++ [.eventsSince (r.Get "app_key") (cutoffTime now n)] ∧
    ((GetEventsForApplication db now (r.Get "app_key") n).1.2 = none →
      (GetEventsHandler db now r).1.status = StatusOK) ∧
    ((GetEventsForApplication db now (r.Get "app_key") n).1.2 ≠ none →
      (GetEventsHandler db now r).1.status = StatusInternalServerError) ∧
    (GetEventsHandler db now r).1.status ≠ StatusBadRequest := by
  obtain ⟨h1, h2, h3⟩ := GetEventsHandler_of_parsed db now r n hp
  have _ := hneg
  refine ⟨h1, ?_, ?_, ?_, ?_⟩
  · rw [h1, GetEventsForApplication_db]
  · intro h; rw [h2 h]; rfl
  · intro h; rw [h3 h]; rfl
  · by_cases h : (GetEventsForApplication db now (r.Get "app_key") n).1.2 = none
    · rw [h2 h]; simp [writeJSON, StatusOK, StatusBadRequest]
    · rw [h3 h]; simp [httpError, StatusInternalServerError, StatusBadRequest]

/-- C10 amended, at the demo store with `time=-5`. -/
theorem getEventsHandler_negative_window_witness :
    Atoi (Request.Get ⟨[("app_key", "k1"), ("time", "-5")]⟩ "time") = (-5, none) ∧
    (-5 : Int) < 0 ∧
    (GetEventsHandler demoDB demoNow ⟨[("app_key", "k1"), ("time", "-5")]⟩).1.status
      ≠ StatusBadRequest :=
  ⟨by decide, by decide,
   (getEventsHandler_negative_window demoDB demoNow ⟨[("app_key", "k1"), ("time", "-5")]⟩
     (-5) (by decide) (by decide)).2.2.2.2⟩

/-- C5: a request to `GET /events` whose `time` parameter is missing, or on
whose value `strconv.Atoi` fails, is answered with HTTP 400, whatever its
`app_key`; the store is left untouched. -/
theorem getEventsHandler_invalid_time (db : DB) (now : Int) (r : Request)
    (h : (∀ v, ("time", v) ∉ r.query) ∨ (Atoi (r.Get "time")).2 ≠ none) :
    (GetEventsHandler db now r).1 = httpError "Invalid time duration" StatusBadRequest ∧
    (GetEventsHandler db now r).1.status = 400 ∧
    (GetEventsHandler db now r).2 = db := by
  have herr : (Atoi (r.Get "time")).2 ≠ none := by
    rcases h with h | h
    · rw [Request.Get_of_missing r "time" h, Atoi_empty]; simp
    · exact h
  have hres : GetEventsHandler db now r =
      (httpError "Invalid time duration" StatusBadRequest, db) := by
    unfold GetEventsHandler
    rcases ha : Atoi (r.Get "time") with ⟨n, err⟩
    rw [ha] at herr
    cases err with
    | none => exact absurd rfl herr
    | some e => simp only [ha]
  rw [hres]
  exact ⟨rfl, rfl, rfl⟩

/-- C5, at the request `GET /events?app_key=demo&time=abc`. -/
theorem getEventsHandler_invalid_time_witness :
    ((∀ v, ("time", v) ∉ (Request.mk [("app_key", "demo"), ("time", "abc")]).query) ∨
      (Atoi (Request.Get ⟨[("app_key", "demo"), ("time", "abc")]⟩ "time")).2 ≠ none) ∧
    (GetEventsHandler demoDB demoNow ⟨[("app_key", "demo"), ("time", "abc")]⟩).1.status
      = 400 :=
  ⟨Or.inr (by decide),
   (getEventsHandler_invalid_time demoDB demoNow ⟨[("app_key", "demo"), ("time", "abc")]⟩
     (Or.inr (by decide))).2.1⟩

/-! ## Lemmas on the application accessors -/

/-- Every call of the accessor executes exactly one query. -/
theorem GetApplicationByAppKey_db (db : DB) (k : String) :
    (GetApplicationByAppKey db k).2 =
      { db with log := db.log ++ [.applicationByKey k] } := by
  unfold GetApplicationByAppKey DB.Query
  cases db.queryErr <;> simp only [Option.isSome] <;> (try rfl)
  simp only [Bool.false_eq_true, if_false]
  split
  · split <;> rfl
  · rfl

/-- The accessor when query execution fails. -/
theorem GetApplicationByAppKey_queryErr (db : DB) (k : String) (e : GoError)
    (hq : db.queryErr = some e) : (GetApplicationByAppKey db k).1 = (none, some e) := by
  unfold GetApplicationByAppKey DB.Query
  simp [hq]

/-- The accessor when the query runs and the cursor hands out no row. -/
theorem GetApplicationByAppKey_no_row (db : DB) (k : String) (hq : db.queryErr = none)
    (hp : (db.cursor (selectApplicationByKey db k)).pending = []) :
    (GetApplicationByAppKey db k).1 = (none, none) := by
  unfold GetApplicationByAppKey DB.Query
  simp [hq, hp]

/-- The accessor when the query runs and the cursor hands out a first row. -/
theorem GetApplicationByAppKey_first_row (db : DB) (k : String) (row : Row Application)
    (rest : List (Row Application)) (hq : db.queryErr = none)
    (hp : (db.cursor (selectApplicationByKey db k)).pending = row :: rest) :
    (GetApplicationByAppKey db k).1 =
      match row.scanErr with
      | some e => (none, some e)
      | none => (some row.cols, none) := by
  unfold GetApplicationByAppKey DB.Query Scan
  simp only [hq, hp, Option.isSome, Bool.false_eq_true, if_false]
  cases row.scanErr <;> rfl

theorem filter_of_find? {α : Type} (p : α → Bool) (l : List α) (a : α)
    (h : l.find? p = some a) : ∃ rest, l.filter p = a :: rest := by
  induction l with
  | nil => simp at h
  | cons x xs ih =>
    by_cases hx : p x = true
    · simp only [List.find?_cons, hx, Option.some.injEq] at h
      subst h
      exact ⟨xs.filter p, by simp [List.filter_cons, hx]⟩
    · simp only [List.find?_cons, hx] at h
      obtain ⟨rest, hr⟩ := ih h
      exact ⟨rest, by simp [List.filter_cons, hx, hr]⟩

/-- What a run of the application loop that ends without an error has done. -/
theorem scanApplications_of_ok (rows : List (Row Application)) (acc : List Application)
    (apps : Option (List Application)) (h : scanApplications rows acc = (apps, none)) :
    apps = some (acc ++ rows.map (fun r => r.cols)) ∧ ∀ r ∈ rows, r.scanErr = none := by
  induction rows generalizing acc with
  | nil =>
    simp only [scanApplications, Prod.mk.injEq, and_true] at h
    simp [← h]
  | cons r rest ih =>
    unfold scanApplications Scan at h
    cases hr : r.scanErr with
    | some e => simp [hr] at h
    | none =>
      simp only [hr] at h
      obtain ⟨h1, h2⟩ := ih _ h
      refine ⟨by simp [h1], ?_⟩
      intro x hx
      rcases List.mem_cons.mp hx with rfl | hx
      · exact hr
      · exact h2 x hx

/-- The application loop never returns a slice together with an error. -/
theorem scanApplications_shape (rows : List (Row Application)) (acc : List Application) :
    (∃ apps, scanApplications rows acc = (some apps, none)) ∨
      (∃ e, scanApplications rows acc = (none, some e)) := by
  induction rows generalizing acc with
  | nil => exact Or.inl ⟨acc, rfl⟩
  | cons r rest ih =>
    unfold scanApplications Scan
    cases hr : r.scanErr with
    | some e => exact Or.inr ⟨e, rfl⟩
    | none => exact ih _

/-- A call of `GetApplications` that returns the nil error met no fault: the
query ran, row iteration did not break, and every row scanned. -/
theorem GetApplications_ok_faultfree (db : DB) (h : (GetApplications db).1.2 = none) :
    db.queryErr = none ∧ db.iterErr = none ∧ ∀ r ∈ db.application, r.scanErr = none := by
  unfold GetApplications DB.Query DB.cursor selectApplications at h
  cases hq : db.queryErr with
  | some e => simp [hq] at h
  | none =>
    cases hi : db.iterErr with
    | some ne =>
      simp only [hq, hi, Option.isSome, Bool.false_eq_true, if_false] at h
      rcases scanApplications_shape (List.take ne.1 db.application) []
        with ⟨apps, he⟩ | ⟨e, he⟩
      · rw [he] at h; simp at h
      · rw [he] at h; simp at h
    | none =>
      simp only [hq, hi, Option.isSome, Bool.false_eq_true, if_false] at h
      rcases scanApplications_shape db.application [] with ⟨apps, he⟩ | ⟨e, he⟩
      · exact ⟨rfl, rfl, (scanApplications_of_ok _ _ _ he).2⟩
      · rw [he] at h; simp at h

/-- A call of `GetEventsForApplication` that returns the nil error met no
fault. -/
theorem GetEventsForApplication_ok_faultfree (db : DB) (now : Int) (k : String) (w : Int)
    (h : (GetEventsForApplication db now k w).1.2 = none) :
    db.queryErr = none ∧ db.iterErr = none ∧
      ∀ r ∈ selectEvents db k (cutoffTime now w), r.scanErr = none := by
  unfold GetEventsForApplication DB.Query DB.cursor at h
  cases hq : db.queryErr with
  | some e => simp [hq] at h
  | none =>
    cases hi : db.iterErr with
    | some ne =>
      simp only [hq, hi, Option.isSome, Bool.false_eq_true, if_false] at h
      rcases scanEvents_shape (List.take ne.1 (selectEvents db k (cutoffTime now w))) []
        with ⟨evs, he⟩ | ⟨e, he⟩
      · rw [he] at h; simp at h
      · rw [he] at h; simp at h
    | none =>
      simp only [hq, hi, Option.isSome, Bool.false_eq_true, if_false] at h
      rcases scanEvents_shape (selectEvents db k (cutoffTime now w)) []
        with ⟨evs, he⟩ | ⟨e, he⟩
      · exact ⟨rfl, rfl, (scanEvents_of_ok _ _ _ he).2⟩
      · rw [he] at h; simp at h

/-- The handler once the `app_key` parameter is non-empty: the accessor is
called with it; an error is answered with 404, the nil error with 200 and the
encoded result. -/
theorem GetApplicationByAppKeyHandler_of_key (db : DB) (r : Request)
    (hk : r.Get "app_key" ≠ "") :
    (GetApplicationByAppKeyHandler db r).2 = (GetApplicationByAppKey db (r.Get "app_key")).2 ∧
    (∀ e, (GetApplicationByAppKey db (r.Get "app_key")).1.2 = some e →
      (GetApplicationByAppKeyHandler db r).1 = httpError e StatusNotFound) ∧
    ((GetApplicationByAppKey db (r.Get "app_key")).1.2 = none →
      (GetApplicationByAppKeyHandler db r).1 =
        writeJSON (EncodeApplication (GetApplicationByAppKey db (r.Get "app_key")).1.1)) := by
  unfold GetApplicationByAppKeyHandler
  simp only [hk, if_false]
  rcases hg : GetApplicationByAppKey db (r.Get "app_key") with ⟨⟨app, err⟩, db1⟩
  cases err with
  | some e => simp
  | none => simp

/-- With no matching row and a query that runs, the lookup returns the nil
pointer with the nil error, and the handler answers 200 with `null`. -/
theorem GetApplicationByAppKeyHandler_no_match (db : DB) (r : Request)
    (hk : r.Get "app_key" ≠ "") (hq : db.queryErr = none)
    (hno : ∀ row ∈ db.application, row.cols.AppKey ≠ r.Get "app_key") :
    (GetApplicationByAppKey db (r.Get "app_key")).1 = (none, none) ∧
    (GetApplicationByAppKeyHandler db r).1 = writeJSON "null\n" := by
  have hsel : selectApplicationByKey db (r.Get "app_key") = [] := by
    unfold selectApplicationByKey
    rw [List.filter_eq_nil_iff]
    intro row hrow
    simpa using hno row hrow
  have hp : (db.cursor (selectApplicationByKey db (r.Get "app_key"))).pending = [] := by
    unfold DB.cursor
    rw [hsel]
    cases db.iterErr <;> simp
  have hres := GetApplicationByAppKey_no_row db (r.Get "app_key") hq hp
  refine ⟨hres, ?_⟩
  rw [(GetApplicationByAppKeyHandler_of_key db r hk).2.2 (by rw [hres]), hres]
  rfl

/-! ## Claims on the application endpoints -/

/-- C2, the code at a failing input: `GET /application?app_key=nokey` on the demo
store, where no application has that key and the query runs.  The lookup
returns the nil pointer with the nil error, and the handler answers 200 with
the body `null`, not 404. -/
theorem getApplicationByAppKeyHandler_unknown_key :
    (∀ row ∈ demoDB.application, row.cols.AppKey ≠ "nokey") ∧
    demoDB.queryErr = none ∧
    (GetApplicationByAppKey demoDB "nokey").1 = (none, none) ∧
    (GetApplicationByAppKeyHandler demoDB ⟨[("app_key", "nokey")]⟩).1 = writeJSON "null\n" ∧
    (GetApplicationByAppKeyHandler demoDB ⟨[("app_key", "nokey")]⟩).1.status = 200 := by
  decide

/-- C3, counterexample: on a connection where query execution fails,
`GetApplicationByAppKey` returns the driver error and
`GetApplicationByAppKeyHandler` answers 404, not 500. -/
theorem getApplicationByAppKeyHandler_query_failure_404 :
    (GetApplicationByAppKey downDB "k1").1 = (none, some "pq: connection refused") ∧
    (GetApplicationByAppKeyHandler downDB ⟨[("app_key", "k1")]⟩).1.status = 404 ∧
    (GetApplicationByAppKeyHandler downDB ⟨[("app_key", "k1")]⟩).1.status ≠ 500 := by
  decide

/-- C3, amended: `GetApplicationsHandler` and `GetEventsHandler` answer 500
whenever their store call returns an error, and the store call returns an
error on each data-access fault (query execution failure, broken row
iteration reported by `rows.Err`, failing `Scan` of a selected row);
`GetApplicationByAppKeyHandler` answers 404 whenever `GetApplicationByAppKey`
returns an error, which it does on query execution failure and on a failing
`Scan` of the first row.  Each handler is taken at every request that makes it
call the store: any request for `GetApplicationsHandler`, a request whose
`time` parses for `GetEventsHandler`, a request with a non-empty `app_key` for
`GetApplicationByAppKeyHandler`. -/
theorem handlers_on_store_failure (db : DB) (now : Int) :
    (∀ r : Request, (GetApplications db).1.2 ≠ none →
      (GetApplicationsHandler db r).1.status = StatusInternalServerError) ∧
    (∀ (r : Request) (n : Int), Atoi (r.Get "time") = (n, none) →
      (GetEventsForApplication db now (r.Get "app_key") n).1.2 ≠ none →
      (GetEventsHandler db now r).1.status = StatusInternalServerError) ∧
    (∀ r : Request, r.Get "app_key" ≠ "" →
      (GetApplicationByAppKey db (r.Get "app_key")).1.2 ≠ none →
      (GetApplicationByAppKeyHandler db r).1.status = StatusNotFound) ∧
    ((db.queryErr ≠ none ∨ db.iterErr ≠ none ∨ ∃ row ∈ db.application, row.scanErr ≠ none) →
      (GetApplications db).1.2 ≠ none) ∧
    (∀ (k : String) (w : Int),
      (db.queryErr ≠ none ∨ db.iterErr ≠ none ∨
        ∃ row ∈ selectEvents db k (cutoffTime now w), row.scanErr ≠ none) →
      (GetEventsForApplication db now k w).1.2 ≠ none) ∧
    (∀ k : String,
      (db.queryErr ≠ none ∨
        (∃ row rest, (db.cursor (selectApplicationByKey db k)).pending = row :: rest ∧
          row.scanErr ≠ none)) →
      (GetApplicationByAppKey db k).1.2 ≠ none) := by
  refine ⟨?_, ?_, ?_, ?_, ?_, ?_⟩
  · intro r h
    unfold GetApplicationsHandler
    rcases hg : GetApplications db with ⟨⟨apps, err⟩, db1⟩
    rw [hg] at h
    cases err with
    | none => exact absurd rfl h
    | some e => rfl
  · intro r n hp h
    rw [(GetEventsHandler_of_parsed db now r n hp).2.2 h]
    rfl
  · intro r hk h
    obtain ⟨e, he⟩ := Option.ne_none_iff_exists'.mp h
    rw [(GetApplicationByAppKeyHandler_of_key db r hk).2.1 e he]
    rfl
  · intro h hok
    obtain ⟨h1, h2, h3⟩ := GetApplications_ok_faultfree db hok
    rcases h with h | h | ⟨row, hrow, h⟩
    · exact h h1
    · exact h h2
    · exact h (h3 row hrow)
  · intro k w h hok
    obtain ⟨h1, h2, h3⟩ := GetEventsForApplication_ok_faultfree db now k w hok
    rcases h with h | h | ⟨row, hrow, h⟩
    · exact h h1
    · exact h h2
    · exact h (h3 row hrow)
  · intro k h
    cases hq : db.queryErr with
    | some e => rw [GetApplicationByAppKey_queryErr db _ e hq]; simp
    | none =>
      rcases h with h | ⟨row, rest, hpend, hscan⟩
      · exact absurd hq h
      · rw [GetApplicationByAppKey_first_row db _ row rest hq hpend]
        cases hs : row.scanErr with
        | none => exact absurd hs hscan
        | some e => simp

/-- C3 amended, at a store whose rows of key `k3` fail to scan, on the requests
`GET /applications`, `GET /events?app_key=k3&time=30` and
`GET /application?app_key=k3`, and at a failing connection on
`GET /events?time=30`. -/
theorem handlers_on_store_failure_witness :
    (GetApplications badRowDB).1.2 ≠ none ∧
    (GetApplicationsHandler badRowDB ⟨[]⟩).1.status = StatusInternalServerError ∧
    Atoi (Request.Get ⟨[("app_key", "k3"), ("time", "30")]⟩ "time") = (30, none) ∧
    (GetEventsForApplication badRowDB demoNow "k3" 30).1.2 ≠ none ∧
    (GetEventsHandler badRowDB demoNow ⟨[("app_key", "k3"), ("time", "30")]⟩).1.status
      = StatusInternalServerError ∧
    Request.Get ⟨[("app_key", "k3")]⟩ "app_key" ≠ "" ∧
    (GetApplicationByAppKey badRowDB "k3").1.2 ≠ none ∧
    (GetApplicationByAppKeyHandler badRowDB ⟨[("app_key", "k3")]⟩).1.status
      = StatusNotFound ∧
    Atoi (Request.Get ⟨[("time", "30")]⟩ "time") = (30, none) ∧
    (GetEventsForApplication downDB demoNow "" 30).1.2 ≠ none ∧
    (GetEventsHandler downDB demoNow ⟨[("time", "30")]⟩).1.status
      = StatusInternalServerError :=
  ⟨by decide,
   (handlers_on_store_failure badRowDB demoNow).1 ⟨[]⟩ (by decide),
   by decide, by decide,
   (handlers_on_store_failure badRowDB demoNow).2.1 ⟨[("app_key", "k3"), ("time", "30")]⟩ 30
     (by decide) (by decide),
   by decide, by decide,
   (handlers_on_store_failure badRowDB demoNow).2.2.1 ⟨[("app_key", "k3")]⟩
     (by decide) (by decide),
   by decide, by decide,
   (handlers_on_store_failure downDB demoNow).2.1 ⟨[("time", "30")]⟩ 30
     (by decide) (by decide)⟩

/-- C4: a request to `GET /application` whose `app_key` parameter is missing or
empty is answered with HTTP 400 and the database is left as it was: no query is
executed. -/
theorem getApplicationByAppKeyHandler_missing_key (db : DB) (r : Request)
    (h : (∀ v, ("app_key", v) ∉ r.query) ∨ r.Get "app_key" = "") :
    (GetApplicationByAppKeyHandler db r).1 =
      httpError "app_key parameter is required" StatusBadRequest ∧
    (GetApplicationByAppKeyHandler db r).1.status = 400 ∧
    (GetApplicationByAppKeyHandler db r).2 = db ∧
    (GetApplicationByAppKeyHandler db r).2.log = db.log := by
  have hk : r.Get "app_key" = "" := by
    rcases h with h | h
    · exact Request.Get_of_missing r "app_key" h
    · exact h
  have hres : GetApplicationByAppKeyHandler db r =
      (httpError "app_key parameter is required" StatusBadRequest, db) := by
    unfold GetApplicationByAppKeyHandler
    simp only [hk, if_true]
  rw [hres]
  exact ⟨rfl, rfl, rfl, rfl⟩

/-- C4, at `GET /application` without parameters on the demo store. -/
theorem getApplicationByAppKeyHandler_missing_key_witness :
    ((∀ v, ("app_key", v) ∉ (Request.mk []).query) ∨ Request.Get ⟨[]⟩ "app_key" = "") ∧
    (GetApplicationByAppKeyHandler demoDB ⟨[]⟩).1.status = 400 ∧
    (GetApplicationByAppKeyHandler demoDB ⟨[]⟩).2.log = demoDB.log :=
  ⟨Or.inl (fun _ h => nomatch h),
   (getApplicationByAppKeyHandler_missing_key demoDB ⟨[]⟩
     (Or.inl (fun _ h => nomatch h))).2.1,
   (getApplicationByAppKeyHandler_missing_key demoDB ⟨[]⟩
     (Or.inl (fun _ h => nomatch h))).2.2.2⟩

/-- C6: when the application table has no rows and the query succeeds,
`GetApplications` returns the empty non-nil slice with the nil error, and
`GetApplicationsHandler` answers 200 with the body `[]`, not `null`. -/
theorem getApplications_empty_table (db : DB) (r : Request)
    (ht : db.application = []) (hq : db.queryErr = none) (hi : db.iterErr = none) :
    (GetApplications db).1 = (some [], none) ∧
    (GetApplicationsHandler db r).1.status = 200 ∧
    (GetApplicationsHandler db r).1.body = "[]" ∧
    (GetApplicationsHandler db r).1.body ≠ "null" ∧
    (GetApplicationsHandler db r).1.header = [("Content-Type", "application/json")] := by
  have hres : GetApplications db =
      ((some [], none), { db with log := db.log ++ [.allApplications] }) := by
    unfold GetApplications DB.Query DB.cursor selectApplications
    simp [ht, hq, hi, scanApplications]
  have hh : (GetApplicationsHandler db r).1 = writeJSON "[]" := by
    unfold GetApplicationsHandler
    rw [hres]
    rfl
  rw [hres, hh]
  exact ⟨rfl, rfl, rfl, by decide, rfl⟩

/-- C6, at the empty store. -/
theorem getApplications_empty_table_witness :
    emptyDB.application = [] ∧ emptyDB.queryErr = none ∧ emptyDB.iterErr = none ∧
    (GetApplications emptyDB).1 = (some [], none) ∧
    (GetApplicationsHandler emptyDB ⟨[]⟩).1.status = 200 ∧
    (GetApplicationsHandler emptyDB ⟨[]⟩).1.body = "[]" :=
  ⟨by decide, by decide, by decide,
   (getApplications_empty_table emptyDB ⟨[]⟩ (by decide) (by decide) (by decide)).1,
   (getApplications_empty_table emptyDB ⟨[]⟩ (by decide) (by decide) (by decide)).2.1,
   (getApplications_empty_table emptyDB ⟨[]⟩ (by decide) (by decide) (by decide)).2.2.1⟩

/-- C9, counterexample: an application is stored under the empty key; the lookup
of `""` returns it, yet `GET /application?app_key=` is answered with 400 and the
store is not queried. -/
theorem getApplicationByAppKeyHandler_empty_key_400 :
    (∃ row ∈ emptyKeyDB.application, row.cols.AppKey = "") ∧
    emptyKeyDB.queryErr = none ∧ emptyKeyDB.iterErr = none ∧
    (GetApplicationByAppKey emptyKeyDB "").1 =
      (some { AppKey := "", Name := "Anonymous", CreationTime := 1000 }, none) ∧
    (GetApplicationByAppKeyHandler emptyKeyDB ⟨[("app_key", "")]⟩).1.status = 400 ∧
    (GetApplicationByAppKeyHandler emptyKeyDB ⟨[("app_key", "")]⟩).1.status ≠ 200 ∧
    (GetApplicationByAppKeyHandler emptyKeyDB ⟨[("app_key", "")]⟩).2.log = [] := by
  decide

/-- C9, amended: for every `app_key` `k`, the empty one included, that some
application row carries exactly, when the query runs, its first row is handed
out and that row scans, `GetApplicationByAppKey k` returns the nil error and a
non-nil `Application` with the fields of the first matching row, whose
`AppKey` is `k`; and when `k` is non-empty, `GetApplicationByAppKeyHandler` on
every request carrying `k` answers 200 with that application encoded as
JSON. -/
theorem getApplicationByAppKey_found (db : DB) (k : String)
    (hex : ∃ x ∈ db.application, x.cols.AppKey = k)
    (hq : db.queryErr = none)
    (hd : ∀ n e, db.iterErr = some (n, e) → 0 < n)
    (hscan : ∀ row, db.application.find? (fun x => x.cols.AppKey == k) = some row →
      row.scanErr = none) :
    ∃ row, db.application.find? (fun x => x.cols.AppKey == k) = some row ∧
      (GetApplicationByAppKey db k).1 = (some row.cols, none) ∧
      row.cols.AppKey = k ∧
      (k ≠ "" → ∀ r : Request, r.Get "app_key" = k →
        (GetApplicationByAppKeyHandler db r).1.status = 200 ∧
        (GetApplicationByAppKeyHandler db r).1.body = row.cols.toJSON ++ "\n" ∧
        (GetApplicationByAppKeyHandler db r).1.header =
          [("Content-Type", "application/json")]) := by
  obtain ⟨x, hx, hxk⟩ := hex
  have hsome : (db.application.find? (fun x => x.cols.AppKey == k)).isSome := by
    rw [List.find?_isSome]
    exact ⟨x, hx, by simp [hxk]⟩
  obtain ⟨row, hrow⟩ := Option.isSome_iff_exists.mp hsome
  have hrk : row.cols.AppKey = k := by
    have := List.find?_some hrow
    simpa using this
  obtain ⟨rest, hfil⟩ := filter_of_find? _ _ _ hrow
  have hpend : ∃ rest1, (db.cursor (selectApplicationByKey db k)).pending = row :: rest1 := by
    unfold DB.cursor selectApplicationByKey
    rw [hfil]
    cases hi : db.iterErr with
    | none => exact ⟨rest, rfl⟩
    | some ne =>
      obtain ⟨m, e⟩ := ne
      have hpos := hd m e hi
      obtain ⟨m1, rfl⟩ : ∃ m1, m = m1 + 1 := ⟨m - 1, by omega⟩
      exact ⟨rest.take m1, by simp⟩
  obtain ⟨rest1, hp⟩ := hpend
  have hacc : (GetApplicationByAppKey db k).1 = (some row.cols, none) := by
    rw [GetApplicationByAppKey_first_row db k row rest1 hq hp, hscan row hrow]
  refine ⟨row, hrow, hacc, hrk, ?_⟩
  intro hk r hr
  have hkr : r.Get "app_key" ≠ "" := by rw [hr]; exact hk
  have hh := (GetApplicationByAppKeyHandler_of_key db r hkr).2.2
  rw [hr, hacc] at hh
  rw [hh rfl]
  exact ⟨rfl, rfl, rfl⟩

/-- C9 amended, at the key `k1` of the demo store, whose row the accessor
returns and `GET /application?app_key=k1` serves with 200, and at the empty key
of a store that registers an application under it, where the accessor returns
the row. -/
theorem getApplicationByAppKey_found_witness :
    ((∃ x ∈ demoDB.application, x.cols.AppKey = "k1") ∧ demoDB.queryErr = none ∧
     demoDB.iterErr = none ∧
     demoDB.application.find? (fun x => x.cols.AppKey == "k1") =
       some { cols := { AppKey := "k1", Name := "Demo", CreationTime := 1000 },
              scanErr := none } ∧
     "k1" ≠ "" ∧ Request.Get ⟨[("app_key", "k1")]⟩ "app_key" = "k1" ∧
     ∃ row, demoDB.application.find? (fun x => x.cols.AppKey == "k1") = some row ∧
       (GetApplicationByAppKey demoDB "k1").1 = (some row.cols, none) ∧
       row.cols.AppKey = "k1" ∧
       ("k1" ≠ "" → ∀ r : Request, r.Get "app_key" = "k1" →
         (GetApplicationByAppKeyHandler demoDB r).1.status = 200 ∧
         (GetApplicationByAppKeyHandler demoDB r).1.body = row.cols.toJSON ++ "\n" ∧
         (GetApplicationByAppKeyHandler demoDB r).1.header =
           [("Content-Type", "application/json")])) ∧
    ((∃ x ∈ emptyKeyDB.application, x.cols.AppKey = "") ∧ emptyKeyDB.queryErr = none ∧
     emptyKeyDB.iterErr = none ∧
     ∃ row, emptyKeyDB.application.find? (fun x => x.cols.AppKey == "") = some row ∧
       (GetApplicationByAppKey emptyKeyDB "").1 = (some row.cols, none) ∧
       row.cols.AppKey = "" ∧
       ("" ≠ "" → ∀ r : Request, r.Get "app_key" = "" →
         (GetApplicationByAppKeyHandler emptyKeyDB r).1.status = 200 ∧
         (GetApplicationByAppKeyHandler emptyKeyDB r).1.body = row.cols.toJSON ++ "\n" ∧
         (GetApplicationByAppKeyHandler emptyKeyDB r).1.header =
           [("Content-Type", "application/json")])) :=
  ⟨⟨by decide, by decide, by decide, by decide, by decide, by decide,
    getApplicationByAppKey_found demoDB "k1" (by decide) (by decide)
      (fun n e h => by
        have h0 : demoDB.iterErr = none := by decide
        rw [h0] at h
        exact absurd h (by simp))
      (fun row h => by
        have h1 : demoDB.application.find? (fun x => x.cols.AppKey == "k1") =
            some { cols := { AppKey := "k1", Name := "Demo", CreationTime := 1000 },
                   scanErr := none } := by decide
        rw [h1] at h
        rw [← Option.some.inj h])⟩,
   ⟨by decide, by decide, by decide,
    getApplicationByAppKey_found emptyKeyDB "" (by decide) (by decide)
      (fun n e h => by
        have h0 : emptyKeyDB.iterErr = none := by decide
        rw [h0] at h
        exact absurd h (by simp))
      (fun row h => by
        have h1 : emptyKeyDB.application.find? (fun x => x.cols.AppKey == "") =
            some { cols := { AppKey := "", Name := "Anonymous", CreationTime := 1000 },
                   scanErr := none } := by decide
        rw [h1] at h
        rw [← Option.some.inj h])⟩⟩

end Server
